import Mathlib

/-!
Shallow embedding of the tabular-data validation engine of the
Import/Export system: the header reconciler (`validateHeaders`), the
schema-drift resolver (`validateSchema`), the row/cell validator
(`validateData` with `validateType`, `validateFormat`, `validateRule`)
and the whole-file gate (`validateFile`), together with the default
type configuration (`defaultDataTypeConfig`).

JavaScript dynamic values are modelled by the tagged union `Value`
(JS numbers as rationals), fallible platform calls (`new RegExp` on a
bad pattern throws) by `Except String`, and the platform regular
expression engine by a small executable matcher covering the construct
subset the repository's patterns use.
-/

namespace ImpExp

/-- A dynamically typed JavaScript value as it appears in a parsed
spreadsheet row: `undefined`, `null`, a string, a number (modelled as a
rational: every spreadsheet numeric literal the engine handles is one),
a boolean, or a `Date` object (modelled as a day/time offset). -/
inductive Value where
  | undefined
  | null
  | str (s : String)
  | num (n : ℚ)
  | bool (b : Bool)
  | date (t : Int)
deriving DecidableEq, Repr

/-- The JS `typeof` operator on a `Value` (`typeof null` is "object";
`Date` objects are also "object"). -/
def jsTypeof : Value → String
  | .undefined => "undefined"
  | .null => "object"
  | .str _ => "string"
  | .num _ => "number"
  | .bool _ => "boolean"
  | .date _ => "object"

/-- The engine's emptiness test, used verbatim at several places:
`value === undefined || value === null || value === ""`. -/
def isEmptyVal : Value → Bool
  | .undefined => true
  | .null => true
  | .str s => s = ""
  | _ => false

/-- Truthiness of an optional string field (`undefined` and `""` are
falsy in JS). -/
def optStrTruthy : Option String → Bool
  | none => false
  | some s => s ≠ ""

/-- JS `opt || dflt` on an optional string configuration field. -/
def orDefault (o : Option String) (dflt : String) : String :=
  match o with
  | some s => if s = "" then dflt else s
  | none => dflt

/-- Character class of the regex escape `\d`. -/
def isDigitCh (c : Char) : Bool := '0' ≤ c && c ≤ '9'

/-- Character class of the regex escape `\s` (the whitespace characters
relevant to the engine). -/
def isSpaceCh (c : Char) : Bool :=
  c = ' ' || c = '\t' || c = '\n' || c = '\r' || c = Char.ofNat 11 || c = Char.ofNat 12

/-- Character class of the regex escape `\w`. -/
def isWordCh (c : Char) : Bool :=
  isDigitCh c || ('a' ≤ c && c ≤ 'z') || ('A' ≤ c && c ≤ 'Z') || c = '_'

/-- One member of a regex character class. -/
inductive ClassItem where
  | ch (c : Char)
  | range (a b : Char)
  | digit
  | space
  | word
deriving DecidableEq, Repr

/-- A regex atom: a (possibly negated) character class or the dot. -/
inductive RAtom where
  | cls (neg : Bool) (items : List ClassItem)
  | dot
deriving DecidableEq, Repr

/-- Quantifier of an elementary piece after expansion: exactly one,
at most one, or any number of repetitions. -/
inductive RQuant where
  | one
  | opt
  | star
deriving DecidableEq, Repr

/-- An atom together with its quantifier. -/
structure RPiece where
  atom : RAtom
  quant : RQuant
deriving DecidableEq, Repr

/-- A compiled regular expression: anchoring flags and the sequence of
pieces. -/
structure CRegex where
  anchStart : Bool
  anchEnd : Bool
  pieces : List RPiece
deriving DecidableEq, Repr

/-- Does a character satisfy a class item? -/
def matchClassItem (c : Char) : ClassItem → Bool
  | .ch a => c = a
  | .range a b => a ≤ c && c ≤ b
  | .digit => isDigitCh c
  | .space => isSpaceCh c
  | .word => isWordCh c

/-- Does a character satisfy an atom? -/
def matchRAtom (a : RAtom) (c : Char) : Bool :=
  match a with
  | .dot => c ≠ '\n'
  | .cls neg items =>
    let m := items.any (matchClassItem c)
    if neg then !m else m

/-- Backtracking matcher for a piece sequence against a character list,
with explicit fuel (every recursive call strictly decreases the summed
size of pieces and characters, so the wrapper's fuel never runs out).
When `anchEnd` is false a match may leave a suffix unconsumed. -/
def matchPiecesF (anchEnd : Bool) : Nat → List RPiece → List Char → Bool
  | 0, _, _ => false
  | _ + 1, [], cs => !anchEnd || cs.isEmpty
  | _ + 1, ⟨_, .one⟩ :: _, [] => false
  | fuel + 1, ⟨a, .one⟩ :: ps, c :: cs => matchRAtom a c && matchPiecesF anchEnd fuel ps cs
  | fuel + 1, ⟨_, .opt⟩ :: ps, [] => matchPiecesF anchEnd fuel ps []
  | fuel + 1, ⟨a, .opt⟩ :: ps, c :: cs =>
    matchPiecesF anchEnd fuel ps (c :: cs) ||
      (matchRAtom a c && matchPiecesF anchEnd fuel ps cs)
  | fuel + 1, ⟨_, .star⟩ :: ps, [] => matchPiecesF anchEnd fuel ps []
  | fuel + 1, ⟨a, .star⟩ :: ps, c :: cs =>
    matchPiecesF anchEnd fuel ps (c :: cs) ||
      (matchRAtom a c && matchPiecesF anchEnd fuel (⟨a, .star⟩ :: ps) cs)

/-- Match a piece sequence against a character list. -/
def matchPieces (anchEnd : Bool) (ps : List RPiece) (cs : List Char) : Bool :=
  matchPiecesF anchEnd (cs.length + ps.length + 1) ps cs

/-- Unanchored search: try a match at every start position. -/
def searchPieces (anchEnd : Bool) (ps : List RPiece) : List Char → Bool
  | [] => matchPieces anchEnd ps []
  | c :: cs => matchPieces anchEnd ps (c :: cs) || searchPieces anchEnd ps cs

/-- The JS `RegExp.prototype.test` on a compiled regex. -/
def regexTest (r : CRegex) (s : String) : Bool :=
  if r.anchStart then matchPieces r.anchEnd r.pieces s.data
  else searchPieces r.anchEnd r.pieces s.data

/-- Raw element met while scanning a character class body: an unescaped
character, an escaped character, or a class escape such as `\d`. -/
inductive CElem where
  | raw (c : Char)
  | esc (c : Char)
  | kls (k : ClassItem)
deriving DecidableEq, Repr

/-- Scan the body of a character class up to the closing bracket.
Fails on an unterminated class or trailing backslash. Fuel is one more
than the remaining input, so it never actually runs out. -/
def scanClassBody : Nat → List Char → Option (List CElem × List Char)
  | 0, _ => none
  | _ + 1, [] => none
  | _ + 1, ']' :: rest => some ([], rest)
  | fuel + 1, '\\' :: c :: rest => do
    let e := match c with
      | 'd' => CElem.kls .digit
      | 's' => CElem.kls .space
      | 'w' => CElem.kls .word
      | c => CElem.esc c
    let (es, rest') ← scanClassBody fuel rest
    some (e :: es, rest')
  | _ + 1, ['\\'] => none
  | fuel + 1, c :: rest => do
    let (es, rest') ← scanClassBody fuel rest
    some (CElem.raw c :: es, rest')

/-- Turn scanned class elements into class items, folding an unescaped
`-` between two unescaped characters into a range (failing, as JS does,
when the range is out of order). -/
def groupElems : List CElem → Option (List ClassItem)
  | [] => some []
  | .raw a :: .raw '-' :: .raw b :: rest =>
    if a ≤ b then do
      let items ← groupElems rest
      some (ClassItem.range a b :: items)
    else none
  | .raw c :: rest => do
    let items ← groupElems rest
    some (ClassItem.ch c :: items)
  | .esc c :: rest => do
    let items ← groupElems rest
    some (ClassItem.ch c :: items)
  | .kls k :: rest => do
    let items ← groupElems rest
    some (k :: items)

/-- Leading decimal digits of a character list, and the rest. -/
def takeDigits (cs : List Char) : List Char × List Char :=
  (cs.takeWhile isDigitCh, cs.dropWhile isDigitCh)

/-- Numeric value of a list of decimal digits. -/
def digitsToNat (ds : List Char) : Nat :=
  ds.foldl (fun n c => n * 10 + (c.toNat - '0'.toNat)) 0

/-- Parse the quantifier, if any, following an atom. Returns the
repetition bounds (upper bound `none` meaning unbounded) and the rest;
no quantifier means exactly one. Fails on a malformed brace quantifier
or out-of-order bounds. -/
def parseQuant : List Char → Option (Nat × Option Nat × List Char)
  | '+' :: rest => some (1, none, rest)
  | '*' :: rest => some (0, none, rest)
  | '?' :: rest => some (0, some 1, rest)
  | '{' :: rest =>
    let (ds, rest1) := takeDigits rest
    if ds.isEmpty then none
    else
      match rest1 with
      | '}' :: rest2 => some (digitsToNat ds, some (digitsToNat ds), rest2)
      | ',' :: '}' :: rest2 => some (digitsToNat ds, none, rest2)
      | ',' :: rest2 =>
        let (ds2, rest3) := takeDigits rest2
        if ds2.isEmpty then none
        else
          match rest3 with
          | '}' :: rest4 =>
            if digitsToNat ds ≤ digitsToNat ds2 then
              some (digitsToNat ds, some (digitsToNat ds2), rest4)
            else none
          | _ => none
      | _ => none
  | cs => some (1, some 1, cs)

/-- Expand an atom with repetition bounds into elementary pieces. -/
def expandQuant (a : RAtom) (lo : Nat) (hi : Option Nat) : List RPiece :=
  let mand := List.replicate lo (⟨a, .one⟩ : RPiece)
  match hi with
  | none => mand ++ [⟨a, .star⟩]
  | some h => mand ++ List.replicate (h - lo) (⟨a, .opt⟩ : RPiece)

/-- Parse one atom: an escape, a character class, the dot, or a literal
character. Unsupported or dangling metacharacters fail. -/
def parseAtom : List Char → Option (RAtom × List Char)
  | '\\' :: c :: rest =>
    match c with
    | 'd' => some (.cls false [.digit], rest)
    | 'D' => some (.cls true [.digit], rest)
    | 's' => some (.cls false [.space], rest)
    | 'S' => some (.cls true [.space], rest)
    | 'w' => some (.cls false [.word], rest)
    | 'W' => some (.cls true [.word], rest)
    | c => some (.cls false [.ch c], rest)
  | ['\\'] => none
  | '[' :: '^' :: rest => do
    let (es, rest2) ← scanClassBody (rest.length + 1) rest
    let items ← groupElems es
    some (.cls true items, rest2)
  | '[' :: rest => do
    let (es, rest2) ← scanClassBody (rest.length + 1) rest
    let items ← groupElems es
    some (.cls false items, rest2)
  | '.' :: rest => some (.dot, rest)
  | c :: rest =>
    if c = '^' || c = '$' || c = '(' || c = ')' || c = '|' ||
        c = '*' || c = '+' || c = '?' || c = '{' || c = '}' || c = ']' then none
    else some (.cls false [.ch c], rest)
  | [] => none

/-- Parse a piece sequence up to the end of the pattern, recognising a
final `$` as the end anchor. Fuel is one more than the input length and
every step consumes at least one character. -/
def parsePieces : Nat → List Char → Option (List RPiece × Bool)
  | 0, _ => none
  | _ + 1, [] => some ([], false)
  | _ + 1, ['$'] => some ([], true)
  | fuel + 1, cs => do
    let (a, rest) ← parseAtom cs
    let (lo, hi, rest2) ← parseQuant rest
    let (ps, anchEnd) ← parsePieces fuel rest2
    some (expandQuant a lo hi ++ ps, anchEnd)

/-- Compile a regex source string; `none` models the `SyntaxError` that
`new RegExp` throws on an invalid pattern. -/
def compileRegex (p : String) : Option CRegex :=
  match p.data with
  | '^' :: rest => (parsePieces (rest.length + 1) rest).map fun pr => ⟨true, pr.2, pr.1⟩
  | cs => (parsePieces (cs.length + 1) cs).map fun pr => ⟨false, pr.2, pr.1⟩

/-- Models `new RegExp p` as an `Except`: an invalid pattern throws. -/
def jsNewRegExp (p : String) : Except String CRegex :=
  match compileRegex p with
  | some r => .ok r
  | none => .error ("SyntaxError: Invalid regular expression: " ++ p)

/-- JS `String.prototype.trim` (over the engine's whitespace set). -/
def jsTrim (s : String) : String :=
  String.mk (((s.data.dropWhile isSpaceCh).reverse.dropWhile isSpaceCh).reverse)

/-- JS `String.prototype.toLowerCase` (ASCII case folding, which is all
the engine's token sets use). -/
def jsToLower (s : String) : String :=
  s.map Char.toLower

/-- Decimal digits of the fractional part of `rem / den`, produced by
long division; 20 digits of fuel (JS numbers with a terminating decimal
expansion never need more than 17 significant digits). -/
def decimalFracDigits : Nat → Nat → Nat → List Char
  | 0, _, _ => []
  | _, 0, _ => []
  | fuel + 1, rem, den =>
    let rem10 := rem * 10
    Char.ofNat ('0'.toNat + rem10 / den) :: decimalFracDigits fuel (rem10 % den) den

/-- Models JS number-to-string conversion (template literals,
`String(n)`, `toString()`): sign, integer part, and the fractional
digits when there are any. -/
def jsNumToString (q : ℚ) : String :=
  let sign := if q < 0 then "-" else ""
  let n := q.num.natAbs
  let d := q.den
  let fracCs := decimalFracDigits 20 (n % d) d
  if fracCs.isEmpty then sign ++ toString (n / d)
  else sign ++ toString (n / d) ++ "." ++ String.mk fracCs

/-- Models `Number.parseFloat`: skip leading whitespace, optional sign,
then digits with an optional fractional part; trailing characters are
ignored; `none` models `NaN` (no leading numeric prefix at all). -/
def jsParseFloat (s : String) : Option ℚ :=
  let cs := s.data.dropWhile isSpaceCh
  let (sign, cs1) : ℚ × List Char :=
    match cs with
    | '-' :: r => (-1, r)
    | '+' :: r => (1, r)
    | r => (1, r)
  let (intDs, cs2) := takeDigits cs1
  let fracDs : List Char :=
    match cs2 with
    | '.' :: r => (takeDigits r).1
    | _ => []
  if intDs.isEmpty && fracDs.isEmpty then none
  else
    some (sign * ((digitsToNat intDs : ℚ) +
      (digitsToNat fracDs : ℚ) / ((10 : ℚ) ^ fracDs.length)))

/-- Models the `Number(...)` coercion of a string: a whitespace-only
string is `0`; otherwise the whole trimmed string must be sign, digits
and an optional fractional part; `none` models `NaN`. -/
def jsNumberOfString (s : String) : Option ℚ :=
  let cs := (jsTrim s).data
  if cs.isEmpty then some 0
  else
    let (sign, cs1) : ℚ × List Char :=
      match cs with
      | '-' :: r => (-1, r)
      | '+' :: r => (1, r)
      | r => (1, r)
    let (intDs, cs2) := takeDigits cs1
    let (fracDs, cs3) : List Char × List Char :=
      match cs2 with
      | '.' :: r => takeDigits r
      | _ => ([], cs2)
    if (intDs.isEmpty && fracDs.isEmpty) || !cs3.isEmpty then none
    else
      some (sign * ((digitsToNat intDs : ℚ) +
        (digitsToNat fracDs : ℚ) / ((10 : ℚ) ^ fracDs.length)))

/-- Models `Number.parseInt` on a string: skip leading whitespace,
optional sign, then the leading digit run; `none` models `NaN`. -/
def jsParseInt (s : String) : Option ℚ :=
  let cs := s.data.dropWhile isSpaceCh
  let (sign, cs1) : ℚ × List Char :=
    match cs with
    | '-' :: r => (-1, r)
    | '+' :: r => (1, r)
    | r => (1, r)
  let (intDs, _) := takeDigits cs1
  if intDs.isEmpty then none else some (sign * (digitsToNat intDs : ℚ))

/-- Models the host platform date parser (`new Date(string)`): it
accepts ISO `YYYY-MM-DD` strings, encoded monotonically so that
calendar comparison is integer comparison; every other string is an
invalid date (`none` models a `NaN` date, whose comparisons are all
false). The engine only ever compares parsed dates. -/
def jsDateParse (s : String) : Option Int :=
  match s.split (· == '-') with
  | [y, m, d] =>
    if y.length = 4 && y.data.all isDigitCh && m.length = 2 && m.data.all isDigitCh &&
        d.length = 2 && d.data.all isDigitCh then
      some ((digitsToNat y.data * 372 + digitsToNat m.data * 31 + digitsToNat d.data : Nat) : Int)
    else none
  | _ => none

/-- Models `new Date(value)` on an arbitrary value: `Date` objects pass
through, strings go through the platform parser, finite numbers are
epoch offsets, booleans coerce to 0/1 and `null` to 0; `undefined`
gives an invalid date. -/
def jsDateOfValue : Value → Option Int
  | .date t => some t
  | .str s => jsDateParse s
  | .num q => some q.floor
  | .bool b => some (if b then 1 else 0)
  | .null => some 0
  | .undefined => none

/-- JS `String(v)` on a standalone value (`Date` objects never reach a
stringification site in the engine). -/
def valueToString : Value → String
  | .undefined => "undefined"
  | .null => "null"
  | .str s => s
  | .num n => jsNumToString n
  | .bool b => if b then "true" else "false"
  | .date _ => "[Date]"

/-- JS `Array.prototype.join` over values: `undefined` and `null`
elements become empty strings. -/
def joinValues (sep : String) (vs : List Value) : String :=
  String.intercalate sep (vs.map fun v =>
    match v with
    | .undefined => ""
    | .null => ""
    | v => valueToString v)

/-- JS `String.prototype.lastIndexOf` for a single character
(-1 when absent). -/
def jsLastIndexOf (s : String) (c : Char) : Int :=
  match s.data.reverse.findIdx? (· == c) with
  | some i => ((s.data.length - 1 - i : Nat) : Int)
  | none => -1

/-- JS `String.prototype.substring(i)` (a negative index clamps to 0). -/
def jsSubstringFrom (s : String) (i : Int) : String :=
  String.mk (s.data.drop i.toNat)

/-- The value carried by a validation rule (`value?: any` in the
source): absent, a number, a string, or an array of values. -/
inductive RuleVal where
  | undefined
  | num (n : ℚ)
  | str (s : String)
  | list (vs : List Value)
deriving DecidableEq, Repr

/-- Truthiness of a rule value (`if (rule.value)`): `undefined`, `0`
and `""` are falsy, arrays are truthy. -/
def ruleValTruthy : RuleVal → Bool
  | .undefined => false
  | .num n => n ≠ 0
  | .str s => s ≠ ""
  | .list _ => true

/-- JS `String(rule.value)`. -/
def ruleValToString : RuleVal → String
  | .undefined => "undefined"
  | .num n => jsNumToString n
  | .str s => s
  | .list vs => joinValues "," vs

/-- Numeric coercion of a rule value as it happens on the right of a
JS `<` / `>` comparison: numbers pass through, everything else goes
through the `Number` coercion of its string form; `none` models `NaN`,
and a comparison against `NaN` is false. -/
def ruleValNum (v : RuleVal) : Option ℚ :=
  match v with
  | .num n => some n
  | v => jsNumberOfString (ruleValToString v)

/-- `n < rule.value` with JS coercion (false against `NaN`). -/
def jsLtRule (n : ℚ) (rv : RuleVal) : Bool :=
  match ruleValNum rv with
  | some m => n < m
  | none => false

/-- `n > rule.value` with JS coercion (false against `NaN`). -/
def jsGtRule (n : ℚ) (rv : RuleVal) : Bool :=
  match ruleValNum rv with
  | some m => n > m
  | none => false

/-- A validation rule attached to a column (`ValidationRule` in
`types.ts`). The optional `validator` callback is omitted: `validateRule`
has no `custom` case in its switch, so the field is never consulted by
the engine. -/
structure ValidationRule where
  type : String
  value : RuleVal := .undefined
  message : String
deriving DecidableEq, Repr

/-- A column of the importer schema (`ColumnConfig` in `types.ts`).
The unused `description` field is omitted. -/
structure ColumnConfig where
  name : String
  displayName : Option String := none
  required : Bool
  type : String
  validationRules : List ValidationRule
  format : Option String := none
  invalidHandling : String := "flag"
  defaultValue : Option String := none
deriving DecidableEq, Repr

/-- `column.displayName || name`. -/
def displayNameOf (c : ColumnConfig) : String :=
  orDefault c.displayName c.name

/-- Per-type configuration: text. -/
structure StringTypeConfig where
  minLength : ℚ
  maxLength : ℚ
  format : Option String := none
  trim : Bool
deriving DecidableEq, Repr

/-- Per-type configuration: numbers (`none` bounds are `null` /
`undefined`, both of which disable the check). -/
structure NumberTypeConfig where
  min : Option ℚ := none
  max : Option ℚ := none
  precision : ℚ
  integerOnly : Bool
deriving DecidableEq, Repr

/-- Per-type configuration: dates. -/
structure DateTypeConfig where
  min : Option String := none
  max : Option String := none
  format : Option String := none
deriving DecidableEq, Repr

/-- Per-type configuration: booleans. -/
structure BooleanTypeConfig where
  trueValues : List String
  falseValues : List String
  caseSensitive : Bool
deriving DecidableEq, Repr

/-- Per-type configuration: emails. -/
structure EmailTypeConfig where
  pattern : Option String := none
  allowedDomains : List String
deriving DecidableEq, Repr

/-- Per-type configuration: phone numbers. -/
structure PhoneTypeConfig where
  pattern : Option String := none
  format : Option String := none
  allowInternational : Bool
deriving DecidableEq, Repr

/-- The process-wide type configuration (`DataTypeConfig`). -/
structure DataTypeConfig where
  string : StringTypeConfig
  number : NumberTypeConfig
  date : DateTypeConfig
  boolean : BooleanTypeConfig
  email : EmailTypeConfig
  phone : PhoneTypeConfig
deriving DecidableEq, Repr

/-- The importer configuration. -/
structure ImporterConfig where
  columns : List ColumnConfig
  acceptedFormats : List String
  invalidColumnHandling : String
  dataTypeConfig : DataTypeConfig
deriving DecidableEq, Repr

/-- A parsed spreadsheet row: a string-keyed mapping in insertion
order. -/
abbrev Row : Type := List (String × Value)

/-- `row[name]`: the value stored under a key, `undefined` when the key
is absent. -/
def rowGet (row : Row) (name : String) : Value :=
  match List.find? (fun kv => kv.1 == name) row with
  | some kv => kv.2
  | none => .undefined

/-- A single diagnostic (`ValidationError`). -/
structure ValidationError where
  row : Nat
  column : String
  value : Value
  message : String
  type : String
  suggestion : String
deriving DecidableEq, Repr

/-- The by-category buckets of a validation result. -/
structure ErrorsByType where
  missing : List ValidationError
  format : List ValidationError
  invalid : List ValidationError
  other : List ValidationError
deriving DecidableEq, Repr

/-- The result of `validateData`. -/
structure ValidationResult where
  valid : Bool
  errors : List ValidationError
  errorsByType : ErrorsByType
deriving DecidableEq, Repr

/-- The result of `validateHeaders`. -/
structure HeaderValidationResult where
  valid : Bool
  expected : List ColumnConfig
  present : List String
  missingRequired : List String
  unrecognized : List String
deriving DecidableEq, Repr

/-- The result of `validateFile` (`data` is `null` when row validation
was skipped). -/
structure FileValidationResult where
  valid : Bool
  format : Bool
  headers : HeaderValidationResult
  data : Option ValidationResult
deriving DecidableEq, Repr

/-- One entry of the schema drift report. -/
structure ErrorReportDetail where
  column : String
  message : String
deriving DecidableEq, Repr

/-- The schema drift report of `validateSchema`. -/
structure ErrorReport where
  message : String
  details : List ErrorReportDetail
deriving DecidableEq, Repr

/-- The result of `validateSchema` (`SchemaValidationResult`). -/
structure SchemaValidationResult where
  valid : Bool
  extraColumns : List String
  validData : List Row
  errorReport : Option ErrorReport
deriving DecidableEq, Repr

/-- The repository's `defaultDataTypeConfig` constant, field by field
(note the corrupted `$$$$` run in the phone pattern, present verbatim
in the source). -/
def defaultDataTypeConfig : DataTypeConfig where
  string := { minLength := 0, maxLength := 255, format := none, trim := true }
  number := { min := none, max := none, precision := 2, integerOnly := false }
  date := { min := none, max := none, format := some "YYYY-MM-DD" }
  boolean :=
    { trueValues := ["true", "yes", "1", "y"]
      falseValues := ["false", "no", "0", "n"]
      caseSensitive := false }
  email := { pattern := some "^[^\\s@]+@[^\\s@]+\\.[^\\s@]+$", allowedDomains := [] }
  phone :=
    { pattern := some "^[\\d\\+\\-$$$$ ]\x7b7,20\x7d$"
      format := some "(###) ###-####"
      allowInternational := true }

/-- What the type checker reports for a single cell: the message, the
diagnostic category, and a fix suggestion. -/
structure TypeIssue where
  message : String
  type : String
  suggestion : String
deriving DecidableEq, Repr

/-- The per-type checker (`validateType`). Empty values never produce a
diagnostic. The result is an `Except` because the email and phone
branches compile a configured pattern with `new RegExp` outside any
`try`, so an invalid configured pattern throws. -/
def validateType (value : Value) (type : String) (typeConfig : DataTypeConfig) :
    Except String (Option TypeIssue) :=
  if isEmptyVal value then .ok none
  else if type = "string" then
    match value with
    | .str s =>
      let minLength := typeConfig.string.minLength
      let maxLength := typeConfig.string.maxLength
      if minLength > 0 ∧ (s.length : ℚ) < minLength then
        .ok (some
          { message := "Text is too short (minimum " ++ jsNumToString minLength ++ " characters)"
            type := "invalid"
            suggestion := "Enter at least " ++ jsNumToString minLength ++ " characters" })
      else if maxLength > 0 ∧ (s.length : ℚ) > maxLength then
        .ok (some
          { message := "Text is too long (maximum " ++ jsNumToString maxLength ++ " characters)"
            type := "invalid"
            suggestion := "Enter no more than " ++ jsNumToString maxLength ++ " characters" })
      else .ok none
    | v =>
      .ok (some
        { message := "Value must be text, got " ++ jsTypeof v
          type := "format"
          suggestion := "Enter a text value" })
  else if type = "number" then
    match
      (match value with
       | .num n => Sum.inr n
       | .str s =>
         match jsParseFloat s with
         | some n => Sum.inr n
         | none =>
           Sum.inl
             ({ message := "Value must be a number, got \"" ++ s ++ "\""
                type := "format"
                suggestion := "Enter a numeric value" } : TypeIssue)
       | v =>
         Sum.inl
           { message := "Value must be a number, got " ++ jsTypeof v
             type := "format"
             suggestion := "Enter a numeric value" }) with
    | Sum.inl issue => .ok (some issue)
    | Sum.inr numValue =>
      let maxCheck : Except String (Option TypeIssue) :=
        match typeConfig.number.max with
        | some mx =>
          if numValue > mx then
            .ok (some
              { message := "Value is too large (maximum " ++ jsNumToString mx ++ ")"
                type := "invalid"
                suggestion := "Enter a value no greater than " ++ jsNumToString mx })
          else .ok none
        | none => .ok none
      if typeConfig.number.integerOnly ∧ numValue.den ≠ 1 then
        .ok (some
          { message := "Value must be an integer, got " ++ jsNumToString numValue
            type := "format"
            suggestion := "Enter a whole number without decimals" })
      else
        match typeConfig.number.min with
        | some mn =>
          if numValue < mn then
            .ok (some
              { message := "Value is too small (minimum " ++ jsNumToString mn ++ ")"
                type := "invalid"
                suggestion := "Enter a value of at least " ++ jsNumToString mn })
          else maxCheck
        | none => maxCheck
  else if type = "date" then
    let fmtSug := "Enter a date in " ++ orDefault typeConfig.date.format "YYYY-MM-DD" ++ " format"
    match
      (match value with
       | .date t => Sum.inr t
       | .str s =>
         match jsDateParse s with
         | some t => Sum.inr t
         | none =>
           Sum.inl
             ({ message := "Value must be a valid date, got \"" ++ s ++ "\""
                type := "format"
                suggestion := fmtSug } : TypeIssue)
       | v =>
         Sum.inl
           { message := "Value must be a date, got " ++ jsTypeof v
             type := "format"
             suggestion := fmtSug }) with
    | Sum.inl issue => .ok (some issue)
    | Sum.inr dateValue =>
      let maxCheck : Except String (Option TypeIssue) :=
        match typeConfig.date.max with
        | some mxStr =>
          if mxStr ≠ "" then
            match jsDateParse mxStr with
            | some mx =>
              if dateValue > mx then
                .ok (some
                  { message := "Date is too late (maximum " ++ mxStr ++ ")"
                    type := "invalid"
                    suggestion := "Enter a date on or before " ++ mxStr })
              else .ok none
            | none => .ok none
          else .ok none
        | none => .ok none
      match typeConfig.date.min with
      | some mnStr =>
        if mnStr ≠ "" then
          match jsDateParse mnStr with
          | some mn =>
            if dateValue < mn then
              .ok (some
                { message := "Date is too early (minimum " ++ mnStr ++ ")"
                  type := "invalid"
                  suggestion := "Enter a date on or after " ++ mnStr })
            else maxCheck
          | none => maxCheck
        else maxCheck
      | none => maxCheck
  else if type = "boolean" then
    let tv := typeConfig.boolean.trueValues
    let fv := typeConfig.boolean.falseValues
    match value with
    | .bool _ => .ok none
    | .str s =>
      let strValue := if typeConfig.boolean.caseSensitive then s else jsToLower s
      let ntv := if typeConfig.boolean.caseSensitive then tv else tv.map jsToLower
      let nfv := if typeConfig.boolean.caseSensitive then fv else fv.map jsToLower
      if !ntv.contains strValue && !nfv.contains strValue then
        .ok (some
          { message := "Value must be a boolean (" ++ String.intercalate "/" tv ++
              " or " ++ String.intercalate "/" fv ++ ")"
            type := "format"
            suggestion := "Enter one of: " ++ String.intercalate ", " (tv ++ fv) })
      else .ok none
    | v =>
      .ok (some
        { message := "Value must be a boolean, got " ++ jsTypeof v
          type := "format"
          suggestion := "Enter one of: " ++ String.intercalate ", " (tv ++ fv) })
  else if type = "email" then
    match value with
    | .str s => do
      let emailPattern ←
        if optStrTruthy typeConfig.email.pattern then
          jsNewRegExp (typeConfig.email.pattern.getD "")
        else jsNewRegExp "^[^\\s@]+@[^\\s@]+\\.[^\\s@]+$"
      if !regexTest emailPattern s then
        pure (some
          { message := "Invalid email format"
            type := "format"
            suggestion := "Enter a valid email address (e.g., user@example.com)" })
      else if typeConfig.email.allowedDomains.length > 0 then
        let domain := (s.split (· == '@')).get? 1
        if !(match domain with
             | some d => typeConfig.email.allowedDomains.contains d
             | none => false) then
          pure (some
            { message := "Email domain not allowed"
              type := "invalid"
              suggestion := "Use an email with one of these domains: " ++
                String.intercalate ", " typeConfig.email.allowedDomains })
        else pure none
      else pure none
    | v =>
      .ok (some
        { message := "Email must be text, got " ++ jsTypeof v
          type := "format"
          suggestion := "Enter a valid email address" })
  else if type = "phone" then
    match
      (match value with
       | .str s => some s
       | .num n => some (jsNumToString n)
       | _ => none) with
    | none =>
      .ok (some
        { message := "Phone must be text or number, got " ++ jsTypeof value
          type := "format"
          suggestion := "Enter a valid phone number" })
    | some phoneStr => do
      let phonePattern ←
        if optStrTruthy typeConfig.phone.pattern then
          jsNewRegExp (typeConfig.phone.pattern.getD "")
        else jsNewRegExp "^[\\d+\\-$$$$ ]\x7b7,20\x7d$"
      if !regexTest phonePattern phoneStr then
        pure (some
          { message := "Invalid phone number format"
            type := "format"
            suggestion :=
              if optStrTruthy typeConfig.phone.format then
                "Enter a phone number in " ++ typeConfig.phone.format.getD "" ++ " format"
              else "Enter a valid phone number" })
      else if !typeConfig.phone.allowInternational && phoneStr.data.contains '+' then
        pure (some
          { message := "International phone numbers not allowed"
            type := "invalid"
            suggestion := "Enter a local phone number without country code" })
      else pure none
  else .ok none

/-- Header reconciliation (`validateHeaders`): one pass over the schema
columns pushing into `present` / `missingRequired`, one pass over the
file headers pushing into `unrecognized`. -/
def validateHeaders (fileHeaders : List String) (config : ImporterConfig) :
    HeaderValidationResult :=
  let pm := config.columns.foldl
    (fun (acc : List String × List String) column =>
      if fileHeaders.contains column.name then (acc.1 ++ [column.name], acc.2)
      else if column.required then (acc.1, acc.2 ++ [column.name])
      else acc)
    ([], [])
  let unrecognized := fileHeaders.foldl
    (fun acc header =>
      if config.columns.any (fun column => column.name == header) then acc
      else acc ++ [header])
    []
  { valid := pm.2.length == 0
    expected := config.columns
    present := pm.1
    missingRequired := pm.2
    unrecognized := unrecognized }

/-- File extension gate (`validateFileFormat`). -/
def validateFileFormat (fileName : String) (acceptedFormats : List String) : Bool :=
  let extension := jsToLower (jsSubstringFrom fileName (jsLastIndexOf fileName '.'))
  acceptedFormats.contains extension

/-- Schema drift resolution (`validateSchema` in `api-utils.ts`):
extra columns are the keys of the first row not declared in the schema;
`reject` and `include` leave the data unchanged, `ignore` and `warn`
strip the extra columns from every row. -/
def validateSchema (data : List Row) (config : ImporterConfig) : SchemaValidationResult :=
  let schemaColumns := config.columns.map (fun col => col.name)
  match data with
  | [] => { valid := true, extraColumns := [], validData := [], errorReport := none }
  | firstRow :: rest =>
    let dataColumns := firstRow.map (fun kv => kv.1)
    let extraColumns := dataColumns.filter (fun col => !schemaColumns.contains col)
    let valid := extraColumns.length == 0 || config.invalidColumnHandling == "include"
    let errorReport : Option ErrorReport :=
      if extraColumns.length > 0 then
        some
          { message := "Found " ++ toString extraColumns.length ++
              " column(s) not defined in the schema"
            details := extraColumns.map fun col =>
              { column := col
                message := "Column \"" ++ col ++ "\" is not defined in the schema" } }
      else none
    let validData : List Row :=
      if extraColumns.length > 0 then
        if config.invalidColumnHandling == "ignore" ||
            config.invalidColumnHandling == "warn" then
          (firstRow :: rest).map fun row =>
            row.filter fun kv => !extraColumns.contains kv.1
        else firstRow :: rest
      else firstRow :: rest
    { valid := valid
      extraColumns := extraColumns
      validData := validData
      errorReport := errorReport }

/-- Column-level format check (`validateFormat`): only meaningful for
text (regex match, with an invalid pattern caught and skipped);
reserved no-ops for date and number formats. Returns the message and
suggestion of the diagnostic, if any. -/
def validateFormat (value : Value) (type : String) (format : String) :
    Option (String × String) :=
  if format = "" ∨ isEmptyVal value then none
  else if type = "string" then
    match value with
    | .str s =>
      match compileRegex format with
      | some regex =>
        if !regexTest regex s then
          some ("Text does not match required format", "Format should match pattern: " ++ format)
        else none
      | none => none
    | _ => none
  else none

/-- The outcome of evaluating one rule against one value. -/
structure RuleResult where
  valid : Bool
  message : String
  type : String
  suggestion : String
deriving DecidableEq, Repr

/-- The passing rule outcome (the function's final fallthrough
`return`). -/
def rulePass : RuleResult := { valid := true, message := "", type := "other", suggestion := "" }

/-- The compiled form of `new RegExp(rule.value)` in the `pattern`
rule case (`RegExp(undefined)` is the empty pattern); `none` models the
thrown `SyntaxError` that the surrounding `try` catches. -/
def compileRuleRegex (rv : RuleVal) : Option CRegex :=
  match rv with
  | .undefined => compileRegex ""
  | rv => compileRegex (ruleValToString rv)

/-- The rule evaluator (`validateRule`). Empty values short-circuit to
valid. The `pattern` case compiles the rule value inside a `try`: an
invalid pattern is swallowed and the rule passes. -/
def validateRule (value : Value) (rule : ValidationRule) (columnType : String)
    (typeConfig : DataTypeConfig) : RuleResult :=
  if isEmptyVal value then rulePass
  else if rule.type = "min" then
    match columnType == "number", value with
    | true, .num n =>
      if jsLtRule n rule.value then
        { valid := false
          message := "Value must be at least " ++ ruleValToString rule.value
          type := "invalid"
          suggestion := "Enter a value of at least " ++ ruleValToString rule.value }
      else rulePass
    | _, .str s =>
      if jsLtRule (s.length : ℚ) rule.value then
        { valid := false
          message := "Text must be at least " ++ ruleValToString rule.value ++ " characters"
          type := "invalid"
          suggestion := "Enter at least " ++ ruleValToString rule.value ++ " characters" }
      else rulePass
    | _, _ => rulePass
  else if rule.type = "max" then
    match columnType == "number", value with
    | true, .num n =>
      if jsGtRule n rule.value then
        { valid := false
          message := "Value must be at most " ++ ruleValToString rule.value
          type := "invalid"
          suggestion := "Enter a value no greater than " ++ ruleValToString rule.value }
      else rulePass
    | _, .str s =>
      if jsGtRule (s.length : ℚ) rule.value then
        { valid := false
          message := "Text must be at most " ++ ruleValToString rule.value ++ " characters"
          type := "invalid"
          suggestion := "Enter no more than " ++ ruleValToString rule.value ++ " characters" }
      else rulePass
    | _, _ => rulePass
  else if rule.type = "pattern" then
    match value with
    | .str s =>
      match compileRuleRegex rule.value with
      | some pattern =>
        if !regexTest pattern s then
          { valid := false
            message :=
              if rule.message = "" then "Value does not match required pattern" else rule.message
            type := "format"
            suggestion := "Enter a value matching the pattern: " ++ ruleValToString rule.value }
        else rulePass
      | none => rulePass
    | _ => rulePass
  else if rule.type = "enum" then
    if ruleValTruthy rule.value then
      let allowedValues : List Value :=
        match rule.value with
        | .list vs => vs
        | rv => ((ruleValToString rv).split (· == ',')).map fun part => Value.str (jsTrim part)
      if !allowedValues.contains value then
        { valid := false
          message :=
            if rule.message = "" then
              "Value must be one of: " ++ joinValues ", " allowedValues
            else rule.message
          type := "invalid"
          suggestion := "Choose one of: " ++ joinValues ", " allowedValues }
      else rulePass
    else rulePass
  else if rule.type = "range" then
    match columnType == "number", value with
    | true, .num n =>
      let parts := (ruleValToString rule.value).split (· == '-')
      let mn := match parts.get? 0 with | some p => jsNumberOfString p | none => none
      let mx := match parts.get? 1 with | some p => jsNumberOfString p | none => none
      let mnStr := match mn with | some q => jsNumToString q | none => "NaN"
      let mxStr := match mx with | some q => jsNumToString q | none => "NaN"
      if ((match mn with | some m => n < m | none => false : Bool) ||
          (match mx with | some m => n > m | none => false : Bool)) then
        { valid := false
          message :=
            if rule.message = "" then "Value must be between " ++ mnStr ++ " and " ++ mxStr
            else rule.message
          type := "invalid"
          suggestion := "Enter a value between " ++ mnStr ++ " and " ++ mxStr }
      else rulePass
    | _, v =>
      if columnType == "date" then
        let parts := (ruleValToString rule.value).split (· == '-')
        let minStr := match parts.get? 0 with | some p => p | none => "undefined"
        let maxStr := match parts.get? 1 with | some p => p | none => "undefined"
        let date := jsDateOfValue v
        let minDate := jsDateParse minStr
        let maxDate := jsDateParse maxStr
        if ((match date, minDate with | some dv, some m => dv < m | _, _ => false : Bool) ||
            (match date, maxDate with | some dv, some m => dv > m | _, _ => false : Bool)) then
          { valid := false
            message :=
              if rule.message = "" then "Date must be between " ++ minStr ++ " and " ++ maxStr
              else rule.message
            type := "invalid"
            suggestion := "Enter a date between " ++ minStr ++ " and " ++ maxStr }
        else rulePass
      else rulePass
  else if rule.type = "precision" then
    match columnType == "number", value with
    | true, .num n =>
      let decimalStr :=
        match ((jsNumToString n).split (· == '.')).get? 1 with
        | some part => part
        | none => ""
      if jsGtRule (decimalStr.length : ℚ) rule.value then
        { valid := false
          message :=
            if rule.message = "" then
              "Value must have at most " ++ ruleValToString rule.value ++ " decimal places"
            else rule.message
          type := "format"
          suggestion :=
            "Enter a number with at most " ++ ruleValToString rule.value ++ " decimal places" }
      else rulePass
    | _, _ => rulePass
  else if rule.type = "domain" then
    match columnType == "email", value with
    | true, .str s =>
      let domain : Value :=
        match (s.split (· == '@')).get? 1 with
        | some d => Value.str d
        | none => Value.undefined
      let allowedDomains : List Value :=
        match rule.value with
        | .list vs => vs
        | rv => ((ruleValToString rv).split (· == ',')).map fun part => Value.str (jsTrim part)
      if !allowedDomains.contains domain then
        { valid := false
          message :=
            if rule.message = "" then
              "Email domain must be one of: " ++ joinValues ", " allowedDomains
            else rule.message
          type := "invalid"
          suggestion := "Use an email with one of these domains: " ++
            joinValues ", " allowedDomains }
      else rulePass
    | _, _ => rulePass
  else if rule.type = "length" then
    match value with
    | .str s =>
      if (ruleValToString rule.value).data.contains '-' then
        let parts := (ruleValToString rule.value).split (· == '-')
        let mn := match parts.get? 0 with | some p => jsNumberOfString p | none => none
        let mx := match parts.get? 1 with | some p => jsNumberOfString p | none => none
        let mnStr := match mn with | some q => jsNumToString q | none => "NaN"
        let mxStr := match mx with | some q => jsNumToString q | none => "NaN"
        if ((match mn with | some m => (s.length : ℚ) < m | none => false : Bool) ||
            (match mx with | some m => (s.length : ℚ) > m | none => false : Bool)) then
          { valid := false
            message :=
              if rule.message = "" then
                "Text length must be between " ++ mnStr ++ " and " ++ mxStr ++ " characters"
              else rule.message
            type := "invalid"
            suggestion := "Enter text between " ++ mnStr ++ " and " ++ mxStr ++ " characters long" }
        else rulePass
      else
        match jsParseInt (ruleValToString rule.value) with
        | some exactLength =>
          if (s.length : ℚ) ≠ exactLength then
            { valid := false
              message :=
                if rule.message = "" then
                  "Text must be exactly " ++ jsNumToString exactLength ++ " characters"
                else rule.message
              type := "invalid"
              suggestion := "Enter exactly " ++ jsNumToString exactLength ++ " characters" }
          else rulePass
        | none =>
          { valid := false
            message :=
              if rule.message = "" then "Text must be exactly NaN characters" else rule.message
            type := "invalid"
            suggestion := "Enter exactly NaN characters" }
    | _ => rulePass
  else rulePass

/-- The column lookup map of `validateData`, built by successive
`Map.set` calls over the schema columns: the last column with a given
name wins. -/
def configMapGet (columns : List ColumnConfig) (name : String) : Option ColumnConfig :=
  columns.foldl (fun acc c => if c.name = name then some c else acc) none

/-- The required-field pass of `validateData` over one row: for every
required schema column whose value in the row is missing or empty, a
`missing` diagnostic at display row `rowIndex + 2`. -/
def requiredErrors (config : ImporterConfig) (rowIndex : Nat) (row : Row) :
    List ValidationError :=
  config.columns.filterMap fun column =>
    if column.required then
      let value := rowGet row column.name
      if isEmptyVal value then
        some
          { row := rowIndex + 2
            column := column.name
            value := value
            message := "Required field \"" ++ displayNameOf column ++ "\" is missing or empty"
            type := "missing"
            suggestion := "Add a value for the \"" ++ displayNameOf column ++ "\" field" }
      else none
    else none

/-- The diagnostics of one row key once the type check has returned:
the type diagnostic, then the column-format diagnostic, then one
diagnostic per failing rule (the rule's own message wins when it is
non-empty). All carry display row `rowIndex + 2`. -/
def entryErrorsCore (config : ImporterConfig) (rowIndex : Nat) (columnName : String)
    (value : Value) (column : ColumnConfig) (typeIssue : Option TypeIssue) :
    List ValidationError :=
  let typeList : List ValidationError :=
    match typeIssue with
    | some te =>
      [{ row := rowIndex + 2, column := columnName, value := value
         message := te.message, type := te.type, suggestion := te.suggestion }]
    | none => []
  let formatList : List ValidationError :=
    if optStrTruthy column.format ∧ !isEmptyVal value then
      match validateFormat value column.type (column.format.getD "") with
      | some fe =>
        [{ row := rowIndex + 2, column := columnName, value := value
           message := fe.1, type := "format", suggestion := fe.2 }]
      | none => []
    else []
  let ruleList : List ValidationError :=
    column.validationRules.filterMap fun rule =>
      let res := validateRule value rule column.type config.dataTypeConfig
      if res.valid then none
      else
        some
          { row := rowIndex + 2
            column := columnName
            value := value
            message := if rule.message = "" then res.message else rule.message
            type := res.type
            suggestion := res.suggestion }
  typeList ++ formatList ++ ruleList

/-- The per-key pass of `validateData` for one key of one row: keys
with no schema column are skipped, empty optional values are skipped,
otherwise the type check runs (it can throw on a bad configured email
or phone pattern) and the diagnostics are assembled. -/
def entryErrors (config : ImporterConfig) (rowIndex : Nat) (columnName : String)
    (value : Value) : Except String (List ValidationError) :=
  match configMapGet config.columns columnName with
  | none => .ok []
  | some column =>
    if isEmptyVal value ∧ !column.required then .ok []
    else
      (validateType value column.type config.dataTypeConfig).map
        (entryErrorsCore config rowIndex columnName value column)

/-- Sequential iteration of `entryErrors` over the keys of a row, in
insertion order; a thrown exception aborts the pass. -/
def collectEntryErrors (config : ImporterConfig) (rowIndex : Nat) :
    List (String × Value) → Except String (List ValidationError)
  | [] => .ok []
  | kv :: rest =>
    match entryErrors config rowIndex kv.1 kv.2 with
    | .error e => .error e
    | .ok errs =>
      match collectEntryErrors config rowIndex rest with
      | .error e => .error e
      | .ok more => .ok (errs ++ more)

/-- All diagnostics of one row: the required-field pass followed by the
per-key pass. -/
def rowErrors (config : ImporterConfig) (rowIndex : Nat) (row : Row) :
    Except String (List ValidationError) :=
  match collectEntryErrors config rowIndex row with
  | .error e => .error e
  | .ok keyed => .ok (requiredErrors config rowIndex row ++ keyed)

/-- Sequential iteration of `rowErrors` over the enumerated rows. -/
def collectRowErrors (config : ImporterConfig) :
    List (Nat × Row) → Except String (List ValidationError)
  | [] => .ok []
  | p :: rest =>
    match rowErrors config p.1 p.2 with
    | .error e => .error e
    | .ok errs =>
      match collectRowErrors config rest with
      | .error e => .error e
      | .ok more => .ok (errs ++ more)

/-- The row/cell validator (`validateData`): every row is processed in
order, diagnostics accumulate, and the final list is bucketed by
category; `valid` iff no diagnostics. -/
def validateData (data : List Row) (config : ImporterConfig) :
    Except String ValidationResult :=
  match collectRowErrors config data.enum with
  | .error e => .error e
  | .ok errors =>
    .ok
      { valid := errors.length == 0
        errors := errors
        errorsByType :=
          { missing := errors.filter fun e => e.type == "missing"
            format := errors.filter fun e => e.type == "format"
            invalid := errors.filter fun e => e.type == "invalid"
            other := errors.filter fun e => e.type == "other" } }

/-- The whole-file gate (`validateFile`): file format check, header
check, and row validation only when the headers are valid; overall
`valid` needs all three (a skipped data validation counts as false). -/
def validateFile (fileName : String) (headers : List String) (data : List Row)
    (config : ImporterConfig) : Except String FileValidationResult :=
  let formatValid := validateFileFormat fileName config.acceptedFormats
  let headerResult := validateHeaders headers config
  match
    (if headerResult.valid then Except.map some (validateData data config)
     else .ok (none : Option ValidationResult)) with
  | .error e => .error e
  | .ok dataResult =>
    .ok
      { valid := formatValid && headerResult.valid &&
          (match dataResult with | some r => r.valid | none => false)
        format := formatValid
        headers := headerResult
        data := dataResult }

instance {ε α : Type} [DecidableEq ε] [DecidableEq α] : DecidableEq (Except ε α) :=
  fun a b =>
    match a, b with
    | .ok x, .ok y => if h : x = y then .isTrue (by rw [h]) else .isFalse (by simp [h])
    | .error x, .error y => if h : x = y then .isTrue (by rw [h]) else .isFalse (by simp [h])
    | .ok _, .error _ => .isFalse (by simp)
    | .error _, .ok _ => .isFalse (by simp)

/-- Scenario A configuration: one required email column. -/
def scenarioAConfig : ImporterConfig where
  columns := [{ name := "email", required := true, type := "email", validationRules := [] }]
  acceptedFormats := [".xlsx", ".xls", ".csv"]
  invalidColumnHandling := "warn"
  dataTypeConfig := defaultDataTypeConfig

/-- Scenario A input: a single row with an empty email cell. -/
def scenarioAData : List Row := [[("email", Value.str "")]]

/-- What the engine returns on scenario A: exactly one `missing`
diagnostic at display row 2, column `email`. -/
def scenarioAResult : ValidationResult where
  valid := false
  errors :=
    [{ row := 2, column := "email", value := Value.str ""
       message := "Required field \"email\" is missing or empty"
       type := "missing"
       suggestion := "Add a value for the \"email\" field" }]
  errorsByType :=
    { missing :=
        [{ row := 2, column := "email", value := Value.str ""
           message := "Required field \"email\" is missing or empty"
           type := "missing"
           suggestion := "Add a value for the \"email\" field" }]
      format := []
      invalid := []
      other := [] }

/-- Scenario B configuration: one required number column with a `min`
rule carrying its own message. -/
def scenarioBConfig : ImporterConfig where
  columns :=
    [{ name := "age", required := true, type := "number"
       validationRules := [{ type := "min", value := RuleVal.num 18, message := "too young" }] }]
  acceptedFormats := [".xlsx", ".xls", ".csv"]
  invalidColumnHandling := "warn"
  dataTypeConfig := defaultDataTypeConfig

/-- Scenario B input: a single row with age 15. -/
def scenarioBData : List Row := [[("age", Value.num 15)]]

/-- What the engine returns on scenario B: exactly one `invalid`
diagnostic with the rule's own message, at display row 2. -/
def scenarioBResult : ValidationResult where
  valid := false
  errors :=
    [{ row := 2, column := "age", value := Value.num 15
       message := "too young", type := "invalid"
       suggestion := "Enter a value of at least 18" }]
  errorsByType :=
    { missing := []
      format := []
      invalid :=
        [{ row := 2, column := "age", value := Value.num 15
           message := "too young", type := "invalid"
           suggestion := "Enter a value of at least 18" }]
      other := [] }

/-- Scenario C configuration: two required columns, `name` and
`email`. -/
def scenarioCConfig : ImporterConfig where
  columns :=
    [{ name := "name", required := true, type := "string", validationRules := [] },
     { name := "email", required := true, type := "email", validationRules := [] }]
  acceptedFormats := [".xlsx", ".xls", ".csv"]
  invalidColumnHandling := "warn"
  dataTypeConfig := defaultDataTypeConfig

/-- Scenario D configuration: schema declares only column `a`, policy
`ignore`. -/
def scenarioDConfig : ImporterConfig where
  columns := [{ name := "a", required := false, type := "string", validationRules := [] }]
  acceptedFormats := [".xlsx", ".xls", ".csv"]
  invalidColumnHandling := "ignore"
  dataTypeConfig := defaultDataTypeConfig

/-- Scenario D input rows. -/
def scenarioDData : List Row := [[("a", Value.num 1), ("b", Value.num 2)]]

/-- Input whose second row has an undeclared key `c` that the first row
does not have. -/
def unevenRowsData : List Row :=
  [[("a", Value.num 1)], [("a", Value.num 1), ("c", Value.num 2)]]

/-- A configuration whose only rule is a `pattern` rule with the
unparseable pattern `[`. -/
def badPatternConfig : ImporterConfig where
  columns :=
    [{ name := "name", required := false, type := "string"
       validationRules := [{ type := "pattern", value := RuleVal.str "[", message := "bad" }] }]
  acceptedFormats := [".csv"]
  invalidColumnHandling := "warn"
  dataTypeConfig := defaultDataTypeConfig

/-- The default type configuration with no configured phone pattern, so
the type checker falls back to its inline default pattern literal. -/
def phoneNoPatternConfig : DataTypeConfig :=
  { defaultDataTypeConfig with
      phone := { pattern := none, format := some "(###) ###-####", allowInternational := true } }

/-- The default type configuration with no configured phone pattern and
international numbers disallowed. -/
def phoneNoIntlConfig : DataTypeConfig :=
  { defaultDataTypeConfig with
      phone := { pattern := none, format := some "(###) ###-####", allowInternational := false } }

/-- Modelled from the spec: the default phone pattern the specification
states, with a parenthesis pair in the character class where the
source's literal has the corrupted `$$$$` run. -/
def specPhonePattern : String := "^[\\d+\\- ()]\x7b7,20\x7d$"

/-- Does the specification's stated default phone pattern accept a
string? -/
def specPhoneAccepts (s : String) : Bool :=
  match compileRegex specPhonePattern with
  | some r => regexTest r s
  | none => false

/-- C2 counterexample: on rows `[{a:1,b:2}]` with schema `["a"]` and
policy `ignore`, `validateSchema` does report `extraColumns = ["b"]`
and cleaned data `[{a:1}]`, but `valid` is false, not true as the
claim states. -/
theorem validateSchema_scenarioD_valid_false :
    (validateSchema scenarioDData scenarioDConfig).extraColumns = ["b"] ∧
    (validateSchema scenarioDData scenarioDConfig).validData = [[("a", Value.num 1)]] ∧
    ¬ (validateSchema scenarioDData scenarioDConfig).valid = true := by
  refine ⟨rfl, rfl, ?_⟩
  decide

/-- C2 (amended): on rows `[{a:1,b:2}]` with schema `["a"]` and policy
`ignore`, `validateSchema` returns `extraColumns = ["b"]`, cleaned data
`[{a:1}]`, `valid = false`, and a populated drift report. -/
theorem validateSchema_scenarioD :
    validateSchema scenarioDData scenarioDConfig =
      { valid := false
        extraColumns := ["b"]
        validData := [[("a", Value.num 1)]]
        errorReport := some
          { message := "Found 1 column(s) not defined in the schema"
            details := [{ column := "b"
                          message := "Column \"b\" is not defined in the schema" }] } } := by
  rfl

/-- C7: on schema `[{name:"age", required, type:number, rules:[min 18
"too young"]}]` and row `{age:15}` with the default type configuration,
`validateData` produces exactly one diagnostic: category `invalid`,
message `too young` (the rule's own message), display row 2. -/
theorem validateData_scenarioB :
    validateData scenarioBData scenarioBConfig = .ok scenarioBResult := by
  rfl

/-- C8: the phone branch of the type checker. The source's inline
default pattern literal is the corrupted `^[\d+\-$$$$ ]{7,20}$`
(digits, `+`, `-`, four dollar signs, space), not the specification's
`^[\d+\- ()]{7,20}$`, so the well-formed phone value
`(123) 456-7890` is rejected with a Format diagnostic both when no
pattern is configured and under `defaultDataTypeConfig` (whose stored
pattern carries the same corruption), while the specification's stated
pattern accepts it; plain and international values exercise the rest
of the claimed behaviour as stated. -/
theorem validateType_phone_default_pattern_rejects_parens :
    validateType (Value.str "(123) 456-7890") "phone" phoneNoPatternConfig =
      .ok (some { message := "Invalid phone number format", type := "format"
                  suggestion := "Enter a phone number in (###) ###-#### format" }) ∧
    validateType (Value.str "(123) 456-7890") "phone" defaultDataTypeConfig =
      .ok (some { message := "Invalid phone number format", type := "format"
                  suggestion := "Enter a phone number in (###) ###-#### format" }) ∧
    specPhoneAccepts "(123) 456-7890" = true ∧
    validateType (Value.str "123-4567") "phone" phoneNoPatternConfig = .ok none ∧
    validateType (Value.bool true) "phone" phoneNoPatternConfig =
      .ok (some { message := "Phone must be text or number, got boolean", type := "format"
                  suggestion := "Enter a valid phone number" }) ∧
    validateType (Value.str "+12345678") "phone" phoneNoIntlConfig =
      .ok (some { message := "International phone numbers not allowed", type := "invalid"
                  suggestion := "Enter a local phone number without country code" }) := by
  refine ⟨rfl, rfl, rfl, rfl, rfl, rfl⟩

/-- C6: the type checker returns no diagnostic for an empty value
(`undefined`, `null`, or the empty string), for every declared type
string and every type configuration; and on the scenario-A input
(single required email column, row with an empty email cell)
`validateData` produces exactly the one `missing` diagnostic at row 2,
column `email`. -/
theorem validateType_empty_and_scenarioA :
    (∀ (t : String) (cfg : DataTypeConfig),
        validateType Value.undefined t cfg = .ok none ∧
        validateType Value.null t cfg = .ok none ∧
        validateType (Value.str "") t cfg = .ok none) ∧
    validateData scenarioAData scenarioAConfig = .ok scenarioAResult :=
  ⟨fun _ _ => ⟨rfl, rfl, rfl⟩, rfl⟩

/-- Equation lemma for the `pattern` case of `validateRule` on a
non-empty string value: everything past the emptiness gate is
definitional. -/
theorem validateRule_pattern_eq (s : String) (h : ¬ isEmptyVal (Value.str s) = true)
    (rv : RuleVal) (msg columnType : String) (cfg : DataTypeConfig) :
    validateRule (Value.str s) { type := "pattern", value := rv, message := msg } columnType cfg
      = match compileRuleRegex rv with
        | some pattern =>
          if !regexTest pattern s then
            { valid := false
              message := if msg = "" then "Value does not match required pattern" else msg
              type := "format"
              suggestion := "Enter a value matching the pattern: " ++ ruleValToString rv }
          else rulePass
        | none => rulePass := by
  unfold validateRule
  rw [if_neg h]
  rfl

/-- C9: a `pattern` rule whose value does not compile as a regular
expression never fails a value: the compile failure is swallowed and
the rule passes for every string value (non-strings skip the check
altogether), and a full `validateData` pass over a row with such a rule
completes cleanly. -/
theorem validateRule_invalid_pattern_always_passes :
    (∀ (pat : String), compileRegex pat = none →
        ∀ (v : Value) (msg columnType : String) (cfg : DataTypeConfig),
          (validateRule v { type := "pattern", value := RuleVal.str pat, message := msg }
              columnType cfg).valid = true) ∧
    validateData [[("name", Value.str "abc")]] badPatternConfig =
      .ok { valid := true, errors := []
            errorsByType := { missing := [], format := [], invalid := [], other := [] } } := by
  constructor
  · intro pat hpat v msg columnType cfg
    have h2 : compileRuleRegex (RuleVal.str pat) = none := by
      rw [show compileRuleRegex (RuleVal.str pat) = compileRegex pat from rfl, hpat]
    cases v with
    | str s =>
      by_cases hs : s = ""
      · subst hs; rfl
      · rw [validateRule_pattern_eq s (by simp [isEmptyVal, hs]), h2]
        rfl
    | undefined => rfl
    | null => rfl
    | num n => rfl
    | bool b => rfl
    | date t => rfl
  · rfl

/-- C9 witness: the pattern `[` does not compile, and the rule passes
on the string value `abc`. -/
theorem validateRule_invalid_pattern_witness :
    compileRegex "[" = none ∧
    (validateRule (Value.str "abc")
        { type := "pattern", value := RuleVal.str "[", message := "bad" }
        "string" defaultDataTypeConfig).valid = true :=
  ⟨rfl, validateRule_invalid_pattern_always_passes.1 "[" rfl (Value.str "abc") "bad" "string"
    defaultDataTypeConfig⟩

/-- C1: `validateSchema` reports `valid` exactly when the extra-column
list is empty or the policy is `include`; and the extra columns are
precisely the keys of the first row (empty input: none) that are not
declared schema column names. -/
theorem validateSchema_valid_iff (data : List Row) (config : ImporterConfig) :
    ((validateSchema data config).valid = true ↔
      (validateSchema data config).extraColumns = [] ∨
        config.invalidColumnHandling = "include") ∧
    (validateSchema data config).extraColumns =
      (match data with
       | [] => []
       | firstRow :: _ =>
         (firstRow.map (fun kv => kv.1)).filter
           (fun col => !(config.columns.map (fun c => c.name)).contains col)) := by
  cases data with
  | nil => simp [validateSchema]
  | cons firstRow rest =>
    constructor
    · simp [validateSchema, List.length_eq_zero]
    · simp [validateSchema]

/-- C3 counterexample: with schema `["a"]`, policy `ignore`, and rows
`[{a:1}, {a:1,c:2}]`, the cleaned data keeps the undeclared key `c` of
the second row, because extra columns are computed from the first row
only — the cleaned data is not schema-conformant. -/
theorem validateSchema_cleaned_keeps_undeclared_key :
    ¬ (∀ row ∈ (validateSchema unevenRowsData scenarioDConfig).validData,
        ∀ kv ∈ row,
          (scenarioDConfig.columns.map (fun c => c.name)).contains kv.1 = true) := by
  decide

/-- C3 (amended): under policy `ignore` or `warn` the cleaned data has
exactly as many rows as the input, and no cleaned row retains any of
the extra columns (which are computed from the first row); keys that do
not occur in the first row are outside the extra-column list and may
survive even when undeclared. -/
theorem validateSchema_ignore_warn_row_preserving (data : List Row) (config : ImporterConfig)
    (h : config.invalidColumnHandling = "ignore" ∨ config.invalidColumnHandling = "warn") :
    (validateSchema data config).validData.length = data.length ∧
    ∀ row ∈ (validateSchema data config).validData,
      ∀ kv ∈ row,
        (validateSchema data config).extraColumns.contains kv.1 = false := by
  have hpol : (config.invalidColumnHandling == "ignore" ||
      config.invalidColumnHandling == "warn") = true := by
    rcases h with h | h <;> simp [h]
  cases data with
  | nil =>
    constructor
    · rfl
    · intro row hrow
      simp [validateSchema] at hrow
  | cons firstRow rest =>
    simp only [validateSchema]
    by_cases hx :
      ((firstRow.map (fun kv => kv.1)).filter
        (fun col => !(config.columns.map (fun c => c.name)).contains col)).length > 0
    · refine ⟨?_, ?_⟩
      · rw [if_pos hx, if_pos hpol]
        simp
      · intro row hrow kv hkv
        rw [if_pos hx, if_pos hpol] at hrow
        simp only [List.mem_map] at hrow
        obtain ⟨row0, _, rfl⟩ := hrow
        have h3 := (List.mem_filter.mp hkv).2
        simpa using h3
    · have hnil :
          ((firstRow.map (fun kv => kv.1)).filter
            (fun col => !(config.columns.map (fun c => c.name)).contains col)) = [] :=
        List.length_eq_zero.mp (Nat.eq_zero_of_not_pos hx)
      refine ⟨?_, ?_⟩
      · rw [if_neg hx]
      · intro row hrow kv hkv
        rw [hnil]
        rfl

/-- C3 witness: the amended statement instantiated on the scenario-D
input under policy `ignore`. -/
theorem validateSchema_ignore_warn_row_preserving_witness :
    (scenarioDConfig.invalidColumnHandling = "ignore" ∨
      scenarioDConfig.invalidColumnHandling = "warn") ∧
    ((validateSchema scenarioDData scenarioDConfig).validData.length = scenarioDData.length ∧
      ∀ row ∈ (validateSchema scenarioDData scenarioDConfig).validData,
        ∀ kv ∈ row,
          (validateSchema scenarioDData scenarioDConfig).extraColumns.contains kv.1 = false) :=
  ⟨Or.inl rfl,
    validateSchema_ignore_warn_row_preserving scenarioDData scenarioDConfig (Or.inl rfl)⟩

/-- The push-style pair fold of `validateHeaders` over the schema
columns is a pair of filtered projections. -/
theorem headersFoldl_eq (fh : List String) (cols : List ColumnConfig)
    (acc : List String × List String) :
    cols.foldl
      (fun (acc : List String × List String) column =>
        if fh.contains column.name then (acc.1 ++ [column.name], acc.2)
        else if column.required then (acc.1, acc.2 ++ [column.name])
        else acc) acc =
    (acc.1 ++ (cols.filter fun c => fh.contains c.name).map (fun c => c.name),
     acc.2 ++ (cols.filter fun c => !fh.contains c.name && c.required).map (fun c => c.name)) := by
  induction cols generalizing acc with
  | nil => simp
  | cons c cs ih =>
    rw [List.foldl_cons]
    by_cases h1 : c.name ∈ fh
    · rw [if_pos (by simpa using h1), ih]
      have e1 : (c :: cs).filter (fun c => fh.contains c.name) =
          c :: cs.filter (fun c => fh.contains c.name) := by simp [h1]
      have e2 : (c :: cs).filter (fun c => !fh.contains c.name && c.required) =
          cs.filter (fun c => !fh.contains c.name && c.required) := by simp [h1]
      rw [e1, e2]
      simp
    · have h1' : ¬ fh.contains c.name = true := by simpa using h1
      have e1 : (c :: cs).filter (fun c => fh.contains c.name) =
          cs.filter (fun c => fh.contains c.name) := by simp [h1]
      rw [if_neg h1']
      by_cases h2 : c.required
      · rw [if_pos h2, ih]
        have e2 : (c :: cs).filter (fun c => !fh.contains c.name && c.required) =
            c :: cs.filter (fun c => !fh.contains c.name && c.required) := by simp [h1, h2]
        rw [e1, e2]
        simp
      · rw [if_neg h2, ih]
        have e2 : (c :: cs).filter (fun c => !fh.contains c.name && c.required) =
            cs.filter (fun c => !fh.contains c.name && c.required) := by simp [h2]
        rw [e1, e2]

/-- The push-style fold of `validateHeaders` over the file headers is a
filter. -/
theorem unrecognizedFoldl_eq (cols : List ColumnConfig) (fh : List String)
    (acc : List String) :
    fh.foldl
      (fun acc header =>
        if cols.any (fun column => column.name == header) then acc
        else acc ++ [header]) acc =
    acc ++ fh.filter (fun header => !cols.any (fun column => column.name == header)) := by
  induction fh generalizing acc with
  | nil => simp
  | cons hd tl ih =>
    rw [List.foldl_cons]
    by_cases h1 : ∃ column ∈ cols, column.name = hd
    · rw [if_pos (by simpa using h1), ih, List.filter_cons_of_neg (by simp [h1])]
    · rw [if_neg (by simpa using h1), ih, List.filter_cons_of_pos (by simpa using h1)]
      simp

/-- C4: `validateHeaders` marks a schema column present exactly on an
exact, case-sensitive occurrence among the file headers; the missing
required list collects the required columns without such an occurrence;
the unrecognized list collects file headers matching no schema column
name; validity is exactly emptiness of the missing required list; and
Scenario C evaluates as claimed. -/
theorem validateHeaders_spec (fileHeaders : List String) (config : ImporterConfig) :
    ((validateHeaders fileHeaders config).present =
      (config.columns.filter fun c => fileHeaders.contains c.name).map (fun c => c.name)) ∧
    ((validateHeaders fileHeaders config).missingRequired =
      (config.columns.filter fun c => !fileHeaders.contains c.name && c.required).map
        (fun c => c.name)) ∧
    ((validateHeaders fileHeaders config).unrecognized =
      fileHeaders.filter (fun header => !config.columns.any fun column => column.name == header)) ∧
    ((validateHeaders fileHeaders config).valid = true ↔
      (validateHeaders fileHeaders config).missingRequired = []) ∧
    validateHeaders ["name", "extra1"] scenarioCConfig =
      { valid := false
        expected := scenarioCConfig.columns
        present := ["name"]
        missingRequired := ["email"]
        unrecognized := ["extra1"] } := by
  refine ⟨?_, ?_, ?_, ?_, rfl⟩
  · simp only [validateHeaders]
    rw [headersFoldl_eq]
    simp
  · simp only [validateHeaders]
    rw [headersFoldl_eq]
    simp
  · simp only [validateHeaders]
    rw [unrecognizedFoldl_eq]
    simp
  · simp only [validateHeaders]
    rw [headersFoldl_eq]
    simp [List.length_eq_zero]

/-- Every diagnostic of the required-field pass for row index `i`
carries display row `i + 2`. -/
theorem requiredErrors_row_eq (config : ImporterConfig) (i : Nat) (row : Row) :
    ∀ e ∈ requiredErrors config i row, e.row = i + 2 := by
  intro e he
  simp only [requiredErrors, List.mem_filterMap] at he
  obtain ⟨c, _, hc⟩ := he
  split at hc
  · split at hc
    · cases hc
      rfl
    · cases hc
  · cases hc

/-- Every diagnostic assembled for one key of row index `i` carries
display row `i + 2`. -/
theorem entryErrorsCore_row_eq (config : ImporterConfig) (i : Nat) (cn : String)
    (v : Value) (col : ColumnConfig) (ti : Option TypeIssue) :
    ∀ e ∈ entryErrorsCore config i cn v col ti, e.row = i + 2 := by
  intro e he
  simp only [entryErrorsCore, List.append_assoc, List.mem_append] at he
  rcases he with he | he | he
  · rcases ti with _ | te
    · cases he
    · rw [List.mem_singleton] at he
      subst he
      rfl
  · split at he
    · split at he
      · rw [List.mem_singleton] at he
        subst he
        rfl
      · cases he
    · cases he
  · simp only [List.mem_filterMap] at he
    obtain ⟨rule, _, hr⟩ := he
    split at hr
    · cases hr
    · cases hr
      rfl

/-- Every diagnostic of the per-key check of one key of row index `i`
carries display row `i + 2`. -/
theorem entryErrors_row_eq (config : ImporterConfig) (i : Nat) (cn : String) (v : Value)
    (errs : List ValidationError) (h : entryErrors config i cn v = .ok errs) :
    ∀ e ∈ errs, e.row = i + 2 := by
  unfold entryErrors at h
  split at h
  · cases h
    intro e he
    cases he
  · split at h
    · cases h
      intro e he
      cases he
    · rename_i col hcol hne
      cases hv : validateType v col.type config.dataTypeConfig with
      | error msg =>
        rw [hv] at h
        simp only [Except.map] at h
        cases h
      | ok ti =>
        rw [hv] at h
        simp only [Except.map] at h
        cases h
        exact entryErrorsCore_row_eq config i cn v col ti

/-- Every diagnostic of the per-key pass over a key list of row index
`i` carries display row `i + 2`. -/
theorem collectEntryErrors_row_eq (config : ImporterConfig) (i : Nat) :
    ∀ (kvs : List (String × Value)) (errs : List ValidationError),
      collectEntryErrors config i kvs = .ok errs → ∀ e ∈ errs, e.row = i + 2 := by
  intro kvs
  induction kvs with
  | nil =>
    intro errs h
    cases h
    intro e he
    cases he
  | cons kv rest ih =>
    intro errs h
    unfold collectEntryErrors at h
    cases h0 : entryErrors config i kv.1 kv.2 with
    | error m =>
      rw [h0] at h
      simp at h
    | ok errs0 =>
      rw [h0] at h
      cases h1 : collectEntryErrors config i rest with
      | error m =>
        rw [h1] at h
        simp at h
      | ok more =>
        rw [h1] at h
        simp only [Except.ok.injEq] at h
        subst h
        intro e he
        rcases List.mem_append.mp he with he | he
        · exact entryErrors_row_eq config i kv.1 kv.2 errs0 h0 e he
        · exact ih more h1 e he

/-- C5 = the display-row offset invariant: every diagnostic `rowErrors`
produces for the row at array index `i` carries `row = i + 2`, and
consequently every diagnostic of a completed `validateData` pass
carries `row = i + 2` for some row index `i` of the input — no
diagnostic carries any other row number. -/
theorem validateData_display_row_offset :
    (∀ (config : ImporterConfig) (i : Nat) (row : Row) (errs : List ValidationError),
        rowErrors config i row = .ok errs → ∀ e ∈ errs, e.row = i + 2) ∧
    (∀ (data : List Row) (config : ImporterConfig) (r : ValidationResult),
        validateData data config = .ok r →
          ∀ e ∈ r.errors, ∃ i, i < data.length ∧ e.row = i + 2) := by
  have hrow : ∀ (config : ImporterConfig) (i : Nat) (row : Row)
      (errs : List ValidationError),
      rowErrors config i row = .ok errs → ∀ e ∈ errs, e.row = i + 2 := by
    intro config i row errs h
    unfold rowErrors at h
    cases hk : collectEntryErrors config i row with
    | error m =>
      rw [hk] at h
      simp at h
    | ok keyed =>
      rw [hk] at h
      simp only [Except.ok.injEq] at h
      subst h
      intro e he
      rcases List.mem_append.mp he with he | he
      · exact requiredErrors_row_eq config i row e he
      · exact collectEntryErrors_row_eq config i row keyed hk e he
  have hcollect : ∀ (config : ImporterConfig) (ps : List (Nat × Row))
      (errs : List ValidationError),
      collectRowErrors config ps = .ok errs →
        ∀ e ∈ errs, ∃ p ∈ ps, e.row = p.1 + 2 := by
    intro config ps
    induction ps with
    | nil =>
      intro errs h
      cases h
      intro e he
      cases he
    | cons p rest ih =>
      intro errs h
      unfold collectRowErrors at h
      cases h0 : rowErrors config p.1 p.2 with
      | error m =>
        rw [h0] at h
        simp at h
      | ok errs0 =>
        rw [h0] at h
        cases h1 : collectRowErrors config rest with
        | error m =>
          rw [h1] at h
          simp at h
        | ok more =>
          rw [h1] at h
          simp only [Except.ok.injEq] at h
          subst h
          intro e he
          rcases List.mem_append.mp he with he | he
          · exact ⟨p, List.mem_cons_self p rest, hrow config p.1 p.2 errs0 h0 e he⟩
          · obtain ⟨q, hq, hq2⟩ := ih more h1 e he
            exact ⟨q, List.mem_cons_of_mem p hq, hq2⟩
  refine ⟨hrow, ?_⟩
  intro data config r h
  unfold validateData at h
  cases herr : collectRowErrors config data.enum with
  | error m =>
    rw [herr] at h
    simp at h
  | ok errors =>
    rw [herr] at h
    simp only [Except.ok.injEq] at h
    subst h
    intro e he
    obtain ⟨p, hp, hp2⟩ := hcollect config data.enum errors herr e he
    have hlt : p.1 < data.length := by
      have := List.mem_enum_iff_getElem?.mp hp
      exact (List.getElem?_eq_some.mp this).1
    exact ⟨p.1, hlt, hp2⟩

/-- C5 witness: the invariant applied to the scenario-B run. -/
theorem validateData_display_row_offset_witness :
    validateData scenarioBData scenarioBConfig = .ok scenarioBResult ∧
    (∀ e ∈ scenarioBResult.errors, ∃ i, i < scenarioBData.length ∧ e.row = i + 2) :=
  ⟨rfl, validateData_display_row_offset.2 scenarioBData scenarioBConfig scenarioBResult rfl⟩

/-- C10: whenever the header gate fails, `validateFile` returns with
`data = null` and overall `valid = false` (row validation is skipped
entirely); and on any completed run, overall validity holds exactly
when the file format check, the header gate, and the data validation
all pass. -/
theorem validateFile_header_gate :
    (∀ (fileName : String) (headers : List String) (data : List Row)
        (config : ImporterConfig),
        (validateHeaders headers config).valid = false →
        validateFile fileName headers data config =
          .ok { valid := false
                format := validateFileFormat fileName config.acceptedFormats
                headers := validateHeaders headers config
                data := none }) ∧
    (∀ (fileName : String) (headers : List String) (data : List Row)
        (config : ImporterConfig) (r : FileValidationResult),
        validateFile fileName headers data config = .ok r →
        (r.valid = true ↔
          r.format = true ∧ r.headers.valid = true ∧
            ∃ d, r.data = some d ∧ d.valid = true)) := by
  constructor
  · intro fileName headers data config hv
    simp only [validateFile]
    rw [if_neg (by simp [hv])]
    simp [hv]
  · intro fileName headers data config r h
    simp only [validateFile] at h
    by_cases hv : (validateHeaders headers config).valid
    · rw [if_pos hv] at h
      cases hd : validateData data config with
      | error msg =>
        rw [hd] at h
        simp only [Except.map] at h
        cases h
      | ok d =>
        rw [hd] at h
        simp only [Except.map] at h
        cases h
        simp [hv]
    · rw [if_neg hv] at h
      cases h
      simp only [Bool.not_eq_true] at hv
      simp [hv]

/-- C10 witness: the header-gate component applied to the scenario-C
headers, whose required column `email` is missing. -/
theorem validateFile_header_gate_witness :
    (validateHeaders ["name", "extra1"] scenarioCConfig).valid = false ∧
    validateFile "data.csv" ["name", "extra1"] [] scenarioCConfig =
      .ok { valid := false
            format := validateFileFormat "data.csv" scenarioCConfig.acceptedFormats
            headers := validateHeaders ["name", "extra1"] scenarioCConfig
            data := none } :=
  ⟨rfl, validateFile_header_gate.1 "data.csv" ["name", "extra1"] [] scenarioCConfig rfl⟩

end ImpExp
